import Mathlib

/-!
# QuadrantTG backend — verification of the auth / rate-limiting core

A shallow embedding of the Telegram Mini App backend's core:
the init-data signature verifier (`app/core/telegram.py`), the fixed-window
rate limiter and identity resolution (`app/core/rate_limiter.py`), the
refresh endpoint (`app/api/v1/routes/auth.py`), and the user service
(`app/services/user.py`, `app/schemas/user.py`).

Strings that cross the wire are modelled as lists of bytes (`Bytes`), the
UTF-8 encoding of the Python `str` values; the stdlib pieces the code relies
on (`urllib.parse.parse_qsl`, `json.loads`, `hmac` + `hashlib.sha256`,
`int(...)`) are embedded at byte level so every verifier run is computable.
-/

namespace QTG

/-! ## Bytes -/

abbrev Bytes := List Nat

/-- UTF-8 bytes of an ASCII string literal (all characters below 0x80). -/
def asciiBytes (s : String) : Bytes := s.data.map Char.toNat

/-! ## Byte-string utilities used by `urllib.parse.parse_qsl` -/

/-- `xs.split(sep)` on byte strings: Python `str.split` with a one-character
separator (an empty input yields one empty field). -/
def splitOnByte (sep : Nat) : Bytes → List Bytes
  | [] => [[]]
  | b :: rest =>
    match splitOnByte sep rest with
    | [] => if b = sep then [[], []] else [[b]]
    | h :: t => if b = sep then [] :: h :: t else (b :: h) :: t

/-- `xs.split(sep, 1)`: split at the first occurrence of `sep`, if any. -/
def splitFirstByte (sep : Nat) : Bytes → Option (Bytes × Bytes)
  | [] => none
  | b :: rest =>
    if b = sep then some ([], rest)
    else
      match splitFirstByte sep rest with
      | none => none
      | some (l, r) => some (b :: l, r)

/-- Value of an ASCII hex digit, if the byte is one. -/
def hexDigitVal (c : Nat) : Option Nat :=
  if 48 ≤ c ∧ c ≤ 57 then some (c - 48)
  else if 97 ≤ c ∧ c ≤ 102 then some (c - 87)
  else if 65 ≤ c ∧ c ≤ 70 then some (c - 55)
  else none

/-- Byte-level `urllib.parse.unquote`: a `%` followed by two hex digits
becomes the decoded byte; invalid escapes are kept verbatim. -/
def pctDecode : Bytes → Bytes
  | [] => []
  | 37 :: a :: b :: rest =>
    match hexDigitVal a, hexDigitVal b with
    | some x, some y => (16 * x + y) :: pctDecode rest
    | _, _ => 37 :: pctDecode (a :: b :: rest)
  | 37 :: rest => 37 :: pctDecode rest
  | c :: rest => c :: pctDecode rest

/-- `unquote(s.replace("+", " "))`, as `parse_qsl` applies to names and
values. -/
def unquotePlus (bs : Bytes) : Bytes :=
  pctDecode (bs.map fun b => if b = 43 then 32 else b)

/-- `urllib.parse.parse_qsl(raw, keep_blank_values=True)`: split on `&`,
drop empty fields, split each field at the first `=` (a field without `=`
keeps a blank value), and percent-decode names and values. -/
def parse_qsl (raw : Bytes) : List (Bytes × Bytes) :=
  (splitOnByte 38 raw).filterMap fun seg =>
    if seg = [] then none
    else
      match splitFirstByte 61 seg with
      | some (n, v) => some (unquotePlus n, unquotePlus v)
      | none => some (unquotePlus seg, [])

/-- `dict(pairs)[k]`: the value of the last pair with key `k`, if any
(later duplicates override earlier ones, as in a Python `dict`). -/
def dictGet : List (Bytes × Bytes) → Bytes → Option Bytes
  | [], _ => none
  | (k, v) :: rest, key =>
    match dictGet rest key with
    | some w => some w
    | none => if k = key then some v else none

/-- The keys of `dict(pairs)` in insertion order: first occurrences, deduplicated. -/
def dictKeys (pairs : List (Bytes × Bytes)) : List Bytes :=
  pairs.foldl (fun acc p => if acc.contains p.1 then acc else acc ++ [p.1]) []

/-- Python `<` on strings, at byte level (UTF-8 order coincides with code
point order). -/
def bytesLt : Bytes → Bytes → Bool
  | [], [] => false
  | [], _ :: _ => true
  | _ :: _, [] => false
  | a :: as, b :: bs => if a < b then true else if b < a then false else bytesLt as bs

/-- Insert into a `bytesLt`-sorted list. -/
def insertSorted (x : Bytes) : List Bytes → List Bytes
  | [] => [x]
  | y :: ys => if bytesLt x y then x :: y :: ys else y :: insertSorted x ys

/-- `sorted(keys)`: insertion sort by `bytesLt`. -/
def sortedBytes (l : List Bytes) : List Bytes := l.foldr insertSorted []

/-- Concatenate with a separator between elements. -/
def joinWith (sep : Bytes) : List Bytes → Bytes
  | [] => []
  | [x] => x
  | x :: y :: rest => x ++ sep ++ joinWith sep (y :: rest)

def hashKey : Bytes := asciiBytes "hash"

/-- `_build_data_check_string`: all keys except `hash`, sorted, joined as
`key=value` lines separated by `\n`. -/
def build_data_check_string (pairs : List (Bytes × Bytes)) : Bytes :=
  joinWith [10] <|
    (sortedBytes (dictKeys pairs)).filterMap fun k =>
      if k = hashKey then none
      else some (k ++ [61] ++ (dictGet pairs k).getD [])

/-! ## SHA-256 and HMAC-SHA256 (`hashlib.sha256`, `hmac.new`) -/

/-- Truncate to a 32-bit word. -/
def w32 (n : Nat) : Nat := n % 4294967296

/-- 32-bit addition. -/
def w32add (a b : Nat) : Nat := (a + b) % 4294967296

/-- Rotate a 32-bit word right by `n`. -/
def rotr (n x : Nat) : Nat := w32 ((x >>> n) ||| (x <<< (32 - n)))

def shaS0 (x : Nat) : Nat := (rotr 7 x) ^^^ (rotr 18 x) ^^^ (x >>> 3)

def shaS1 (x : Nat) : Nat := (rotr 17 x) ^^^ (rotr 19 x) ^^^ (x >>> 10)

/-- The 64 SHA-256 round constants of FIPS 180-4, in decimal. -/
def shaK : List Nat :=
  [1116352408, 1899447441, 3049323471, 3921009573, 961987163,
   1508970993, 2453635748, 2870763221, 3624381080, 310598401,
   607225278, 1426881987, 1925078388, 2162078206, 2614888103,
   3248222580, 3835390401, 4022224774, 264347078, 604807628,
   770255983, 1249150122, 1555081692, 1996064986, 2554220882,
   2821834349, 2952996808, 3210313671, 3336571891, 3584528711,
   113926993, 338241895, 666307205, 773529912, 1294757372,
   1396182291, 1695183700, 1986661051, 2177026350, 2456956037,
   2730485921, 2820302411, 3259730800, 3345764771, 3516065817,
   3600352804, 4094571909, 275423344, 430227734, 506948616,
   659060556, 883997877, 958139571, 1322822218, 1537002063,
   1747873779, 1955562222, 2024104815, 2227730452, 2361852424,
   2428436474, 2756734187, 3204031479, 3329325298]

/-- The SHA-256 initial hash value of FIPS 180-4, in decimal. -/
def shaH0 : List Nat :=
  [1779033703, 3144134277, 1013904242, 2773480762,
   1359893119, 2600822924, 528734635, 1541459225]

/-- `k` bytes of `n`, big-endian. -/
def toBE (k n : Nat) : Bytes :=
  (List.range k).map fun i => (n >>> (8 * (k - 1 - i))) % 256

/-- SHA-256 padding: `0x80`, zeros to 56 mod 64, then the bit length on
8 bytes big-endian. -/
def shaPad (msg : Bytes) : Bytes :=
  msg ++ [128] ++ List.replicate ((119 - msg.length % 64) % 64) 0
      ++ toBE 8 (msg.length * 8)

/-- Split into 64-byte blocks (fuel-driven so the kernel can evaluate it). -/
def chunks64Aux : Nat → Bytes → List Bytes
  | 0, _ => []
  | _, [] => []
  | fuel + 1, xs => xs.take 64 :: chunks64Aux fuel (xs.drop 64)

def chunks64 (xs : Bytes) : List Bytes := chunks64Aux xs.length xs

/-- Big-endian 32-bit words from bytes. -/
def bytesToWords : Bytes → List Nat
  | a :: b :: c :: d :: rest => (((a * 256 + b) * 256 + c) * 256 + d) :: bytesToWords rest
  | _ => []

/-- Extend the 16 block words to the 64-entry message schedule; `acc` holds
the schedule so far, most recent first. -/
def shaExtend : Nat → List Nat → List Nat
  | 0, acc => acc.reverse
  | n + 1, acc =>
    let v := w32add (w32add (shaS1 (acc.getD 1 0)) (acc.getD 6 0))
                    (w32add (shaS0 (acc.getD 14 0)) (acc.getD 15 0))
    shaExtend n (v :: acc)

def shaSchedule (ws : List Nat) : List Nat := shaExtend 48 ws.reverse

/-- The eight SHA-256 working variables. -/
structure ShaState where
  a : Nat
  b : Nat
  c : Nat
  d : Nat
  e : Nat
  f : Nat
  g : Nat
  h : Nat

/-- One SHA-256 round. -/
def shaRound (s : ShaState) (kw : Nat × Nat) : ShaState :=
  let e1 := (rotr 6 s.e) ^^^ (rotr 11 s.e) ^^^ (rotr 25 s.e)
  let ch := (s.e &&& s.f) ^^^ ((s.e ^^^ 4294967295) &&& s.g)
  let t1 := w32add s.h (w32add e1 (w32add ch (w32add kw.1 kw.2)))
  let e0 := (rotr 2 s.a) ^^^ (rotr 13 s.a) ^^^ (rotr 22 s.a)
  let mj := (s.a &&& s.b) ^^^ (s.a &&& s.c) ^^^ (s.b &&& s.c)
  let t2 := w32add e0 mj
  ⟨w32add t1 t2, s.a, s.b, s.c, w32add s.d t1, s.e, s.f, s.g⟩

/-- Compress one 64-byte block (given as 16 words) into the hash state. -/
def shaCompress (hs : List Nat) (blockWords : List Nat) : List Nat :=
  let ws := shaSchedule blockWords
  let init : ShaState :=
    ⟨hs.getD 0 0, hs.getD 1 0, hs.getD 2 0, hs.getD 3 0,
     hs.getD 4 0, hs.getD 5 0, hs.getD 6 0, hs.getD 7 0⟩
  let fin := (shaK.zip ws).foldl shaRound init
  [w32add (hs.getD 0 0) fin.a, w32add (hs.getD 1 0) fin.b,
   w32add (hs.getD 2 0) fin.c, w32add (hs.getD 3 0) fin.d,
   w32add (hs.getD 4 0) fin.e, w32add (hs.getD 5 0) fin.f,
   w32add (hs.getD 6 0) fin.g, w32add (hs.getD 7 0) fin.h]

/-- SHA-256 digest (32 bytes) of a byte string. -/
def sha256 (msg : Bytes) : Bytes :=
  let blocks := (chunks64 (shaPad msg)).map bytesToWords
  let hs := blocks.foldl shaCompress shaH0
  (hs.map (toBE 4)).foldr (· ++ ·) []

/-- `hmac.new(key, msg, sha256).digest()` (RFC 2104 with a 64-byte block). -/
def hmacSha256 (key msg : Bytes) : Bytes :=
  let k0 := if 64 < key.length then sha256 key else key
  let kp := k0 ++ List.replicate (64 - k0.length) 0
  sha256 ((kp.map (· ^^^ 92)) ++ sha256 ((kp.map (· ^^^ 54)) ++ msg))

/-- Lowercase hex encoding (`.hexdigest()`), as ASCII bytes. -/
def toHexBytes (bs : Bytes) : Bytes :=
  bs.foldr (fun b acc =>
    (if b / 16 < 10 then 48 + b / 16 else 87 + b / 16)
      :: (if b % 16 < 10 then 48 + b % 16 else 87 + b % 16) :: acc) []

/-- `_compute_hash`: the secret key is `hmac.new(b"WebAppData",
bot_token, sha256)` — HMAC-SHA256 *keyed by the literal bytes
`"WebAppData"`* with the bot token as message — and the returned value is
the hex HMAC-SHA256 of the data-check string under that secret key. -/
def compute_hash (dataCheckString botToken : Bytes) : Bytes :=
  toHexBytes (hmacSha256 (hmacSha256 (asciiBytes "WebAppData") botToken) dataCheckString)

/-- The hash formula in the words of the spec sentence "Derive a secret key
as HMAC-SHA256 of the literal byte string `WebAppData` keyed by the bot
token": here the bot token is the *key* and `"WebAppData"` the message —
the opposite argument order from `_compute_hash` in the source. -/
def spec_claimed_hash (dataCheckString botToken : Bytes) : Bytes :=
  toHexBytes (hmacSha256 (hmacSha256 botToken (asciiBytes "WebAppData")) dataCheckString)

/-! ## JSON (`json.loads`), at byte level

Python decodes the `user` field with `json.loads`. The AST keeps floats
only as their toward-zero integer truncation (that is all `int(...)` — the
one consumer — observes); object fields keep parse order, with lookups
taking the last duplicate as a Python `dict` does. -/

inductive JValue where
  | jnull
  | jbool (b : Bool)
  | jint (n : Int)
  | jfloat (trunc : Int)
  | jstr (s : Bytes)
  | jarr (elems : List JValue)
  | jobj (fields : List (Bytes × JValue))

/-- Skip JSON whitespace. -/
def skipWs : Bytes → Bytes
  | [] => []
  | c :: rest => if c = 32 ∨ c = 9 ∨ c = 10 ∨ c = 13 then skipWs rest else c :: rest

/-- UTF-8 encoding of a code point (for `\uXXXX` escapes). -/
def utf8Encode (n : Nat) : Bytes :=
  if n < 128 then [n]
  else if n < 2048 then [192 + n / 64, 128 + n % 64]
  else if n < 65536 then [224 + n / 4096, 128 + (n / 64) % 64, 128 + n % 64]
  else [240 + n / 262144, 128 + (n / 4096) % 64, 128 + (n / 64) % 64, 128 + n % 64]

/-- JSON string body after the opening quote: content bytes and the rest of
the input after the closing quote. Control characters and invalid escapes
are errors (`json.loads` is strict). -/
def parseJStr : Bytes → Option (Bytes × Bytes)
  | 34 :: rest => some ([], rest)
  | 92 :: 34 :: rest => (parseJStr rest).map fun p => (34 :: p.1, p.2)
  | 92 :: 92 :: rest => (parseJStr rest).map fun p => (92 :: p.1, p.2)
  | 92 :: 47 :: rest => (parseJStr rest).map fun p => (47 :: p.1, p.2)
  | 92 :: 98 :: rest => (parseJStr rest).map fun p => (8 :: p.1, p.2)
  | 92 :: 102 :: rest => (parseJStr rest).map fun p => (12 :: p.1, p.2)
  | 92 :: 110 :: rest => (parseJStr rest).map fun p => (10 :: p.1, p.2)
  | 92 :: 114 :: rest => (parseJStr rest).map fun p => (13 :: p.1, p.2)
  | 92 :: 116 :: rest => (parseJStr rest).map fun p => (9 :: p.1, p.2)
  | 92 :: 117 :: a :: b :: c :: d :: rest =>
    match hexDigitVal a, hexDigitVal b, hexDigitVal c, hexDigitVal d with
    | some w, some x, some y, some z =>
      (parseJStr rest).map fun p =>
        (utf8Encode (4096 * w + 256 * x + 16 * y + z) ++ p.1, p.2)
    | _, _, _, _ => none
  | 92 :: _ => none
  | [] => none
  | ch :: rest =>
    if ch < 32 then none else (parseJStr rest).map fun p => (ch :: p.1, p.2)

def isDigitByte (c : Nat) : Bool := 48 ≤ c ∧ c ≤ 57

/-- Longest digit run at the front. -/
def takeDigits : Bytes → Bytes × Bytes
  | [] => ([], [])
  | c :: rest =>
    if isDigitByte c then
      match takeDigits rest with
      | (ds, r) => (c :: ds, r)
    else ([], c :: rest)

def digitsVal (ds : Bytes) : Nat := ds.foldl (fun acc d => acc * 10 + (d - 48)) 0

/-- JSON number: integers become `jint`; any fraction or exponent makes a
float, kept as its toward-zero truncation. -/
def parseJNum (bs : Bytes) : Option (JValue × Bytes) :=
  let sgnRest : Bool × Bytes := match bs with
    | 45 :: r => (true, r)
    | _ => (false, bs)
  let (ints, s2) := takeDigits sgnRest.2
  if ints = [] then none
  else if 1 < ints.length ∧ ints.headD 0 = 48 then none
  else
    let frRes : Option (Option Bytes × Bytes) := match s2 with
      | 46 :: r =>
        match takeDigits r with
        | ([], _) => none
        | (ds, r2) => some (some ds, r2)
      | _ => some (none, s2)
    match frRes with
    | none => none
    | some (fr, s3) =>
      let exRes : Option (Option Int × Bytes) := match s3 with
        | 101 :: 45 :: r =>
          match takeDigits r with
          | ([], _) => none
          | (ds, r2) => some (some (-(digitsVal ds : Int)), r2)
        | 101 :: 43 :: r =>
          match takeDigits r with
          | ([], _) => none
          | (ds, r2) => some (some (digitsVal ds : Int), r2)
        | 101 :: r =>
          match takeDigits r with
          | ([], _) => none
          | (ds, r2) => some (some (digitsVal ds : Int), r2)
        | 69 :: 45 :: r =>
          match takeDigits r with
          | ([], _) => none
          | (ds, r2) => some (some (-(digitsVal ds : Int)), r2)
        | 69 :: 43 :: r =>
          match takeDigits r with
          | ([], _) => none
          | (ds, r2) => some (some (digitsVal ds : Int), r2)
        | 69 :: r =>
          match takeDigits r with
          | ([], _) => none
          | (ds, r2) => some (some (digitsVal ds : Int), r2)
        | _ => some (none, s3)
      match exRes with
      | none => none
      | some (ex, s4) =>
        let sgn : Int := if sgnRest.1 then -1 else 1
        match fr, ex with
        | none, none => some (.jint (sgn * (digitsVal ints : Int)), s4)
        | _, _ =>
          let frDs := fr.getD []
          let scale : Int := ex.getD 0 - (frDs.length : Int)
          let mant : Nat := digitsVal (ints ++ frDs)
          let mag : Nat :=
            if 0 ≤ scale then mant * 10 ^ scale.toNat else mant / 10 ^ (-scale).toNat
          some (.jfloat (sgn * (mag : Int)), s4)

/-- Parser modes: a value, array elements (fresh / after a comma), object
members (fresh / after a comma). -/
inductive JMode where
  | value
  | arrFirst
  | arrNext
  | objFirst
  | objNext

inductive JRes where
  | val (v : JValue)
  | elems (vs : List JValue)
  | membs (fs : List (Bytes × JValue))

/-- Fuel-driven recursive-descent JSON parser. -/
def jsonP : Nat → JMode → Bytes → Option (JRes × Bytes)
  | 0, _, _ => none
  | fuel + 1, .value, input =>
    match skipWs input with
    | 110 :: 117 :: 108 :: 108 :: rest => some (.val .jnull, rest)
    | 116 :: 114 :: 117 :: 101 :: rest => some (.val (.jbool true), rest)
    | 102 :: 97 :: 108 :: 115 :: 101 :: rest => some (.val (.jbool false), rest)
    | 34 :: rest => (parseJStr rest).map fun p => (.val (.jstr p.1), p.2)
    | 91 :: rest =>
      match jsonP fuel .arrFirst rest with
      | some (.elems vs, r) => some (.val (.jarr vs), r)
      | _ => none
    | 123 :: rest =>
      match jsonP fuel .objFirst rest with
      | some (.membs fs, r) => some (.val (.jobj fs), r)
      | _ => none
    | s => (parseJNum s).map fun p => (.val p.1, p.2)
  | fuel + 1, .arrFirst, input =>
    match skipWs input with
    | 93 :: rest => some (.elems [], rest)
    | s => jsonP fuel .arrNext s
  | fuel + 1, .arrNext, input =>
    match jsonP fuel .value input with
    | some (.val v, r) =>
      match skipWs r with
      | 44 :: r2 =>
        match jsonP fuel .arrNext r2 with
        | some (.elems vs, r3) => some (.elems (v :: vs), r3)
        | _ => none
      | 93 :: r2 => some (.elems [v], r2)
      | _ => none
    | _ => none
  | fuel + 1, .objFirst, input =>
    match skipWs input with
    | 125 :: rest => some (.membs [], rest)
    | s => jsonP fuel .objNext s
  | fuel + 1, .objNext, input =>
    match skipWs input with
    | 34 :: rest =>
      match parseJStr rest with
      | none => none
      | some (key, r1) =>
        match skipWs r1 with
        | 58 :: r2 =>
          match jsonP fuel .value r2 with
          | some (.val v, r3) =>
            match skipWs r3 with
            | 44 :: r4 =>
              match jsonP fuel .objNext r4 with
              | some (.membs fs, r5) => some (.membs ((key, v) :: fs), r5)
              | _ => none
            | 125 :: r4 => some (.membs [(key, v)], r4)
            | _ => none
          | _ => none
        | _ => none
    | _ => none

/-- `json.loads` on bytes: parse one value and require only whitespace after. -/
def json_loads (bs : Bytes) : Option JValue :=
  match jsonP (3 * bs.length + 8) .value bs with
  | some (.val v, rest) => if skipWs rest = [] then some v else none
  | _ => none

/-! ## Python `int(...)` and the dict/membership operators the code uses -/

/-- An exception that leaves `_build_auth_payload`: a sanitized
`HTTPException` detail, or a raw Python exception (named by its class) that
nothing in the verifier catches. -/
inductive PyFail where
  | http (detail : String)
  | exc (excName : String)
deriving DecidableEq

def isPyWsByte (c : Nat) : Bool := c = 32 ∨ c = 9 ∨ c = 10 ∨ c = 13 ∨ c = 11 ∨ c = 12

def dropLeadingWs : Bytes → Bytes
  | [] => []
  | c :: rest => if isPyWsByte c then dropLeadingWs rest else c :: rest

def stripPyWs (bs : Bytes) : Bytes := (dropLeadingWs (dropLeadingWs bs.reverse).reverse)

/-- After a first digit: digits with single underscores between digits. -/
def digitsUndAux : Bytes → Option Bytes
  | [] => some []
  | 95 :: [] => none
  | 95 :: c :: rest =>
    if isDigitByte c then (digitsUndAux rest).map (c :: ·) else none
  | c :: rest =>
    if isDigitByte c then (digitsUndAux rest).map (c :: ·) else none

/-- A nonempty digit string, underscores allowed between digits; returns
the digits with underscores removed. -/
def digitsUnd : Bytes → Option Bytes
  | [] => none
  | c :: rest =>
    if isDigitByte c then (digitsUndAux rest).map (c :: ·) else none

/-- Python `int(s)` for a `str` argument: strip whitespace, optional sign,
base-10 digits (underscores between digits allowed); `none` models the
`ValueError` on anything else. -/
def pyIntOfStr (bs : Bytes) : Option Int :=
  let s := stripPyWs bs
  let sgnRest : Int × Bytes := match s with
    | 43 :: r => (1, r)
    | 45 :: r => (-1, r)
    | _ => (1, s)
  (digitsUnd sgnRest.2).map fun ds => sgnRest.1 * (digitsVal ds : Int)

/-- Last-duplicate-wins lookup in JSON object fields (a Python `dict`). -/
def jGet : List (Bytes × JValue) → Bytes → Option JValue
  | [], _ => none
  | (k, v) :: rest, key =>
    match jGet rest key with
    | some w => some w
    | none => if k = key then some v else none

def idKey : Bytes := asciiBytes "id"

def leadsWith : Bytes → Bytes → Bool
  | [], _ => true
  | _ :: _, [] => false
  | a :: ps, b :: ss => a = b && leadsWith ps ss

/-- Contiguous-substring test (Python `in` on strings). -/
def hasSubSeq (pat : Bytes) : Bytes → Bool
  | [] => pat.isEmpty
  | b :: t => leadsWith pat (b :: t) || hasSubSeq pat t

def jStrEq (pat : Bytes) : JValue → Bool
  | .jstr s => decide (s = pat)
  | _ => false

/-- Python `"id" in user_payload`: key membership on a dict, element
membership on a list, substring on a string, `TypeError` otherwise. -/
def pyContainsId : JValue → Except PyFail Bool
  | .jobj fs => .ok (fs.any fun p => decide (p.1 = idKey))
  | .jarr xs => .ok (xs.any (jStrEq idKey))
  | .jstr s => .ok (hasSubSeq idKey s)
  | _ => .error (.exc "TypeError")

/-- Python `user_payload["id"]`: dict lookup; `TypeError` on any
non-dict subscript with a string index. -/
def pySubscriptId : JValue → Except PyFail JValue
  | .jobj fs =>
    match jGet fs idKey with
    | some w => .ok w
    | none => .error (.exc "KeyError")
  | _ => .error (.exc "TypeError")

/-- Python `int(x)` on a decoded JSON value. -/
def pyIntOfJ : JValue → Except PyFail Int
  | .jint n => .ok n
  | .jbool b => .ok (if b then 1 else 0)
  | .jfloat t => .ok t
  | .jstr s =>
    match pyIntOfStr s with
    | some n => .ok n
    | none => .error (.exc "ValueError")
  | _ => .error (.exc "TypeError")

/-! ## `TelegramAuthData` and `_build_auth_payload` -/

/-- `app/schemas/auth.py: TelegramAuthData` (pydantic model). -/
structure TelegramAuthData where
  id : Int
  first_name : Option Bytes
  last_name : Option Bytes
  username : Option Bytes
  photo_url : Option Bytes
  auth_date : Int
  hash : Bytes
  locale : Option Bytes
deriving DecidableEq

inductive VerifyOutcome where
  | ok (auth : TelegramAuthData)
  | unauthorized (detail : String)
  | unhandled (excName : String)
deriving DecidableEq

def userKey : Bytes := asciiBytes "user"
def authDateKey : Bytes := asciiBytes "auth_date"
def firstNameKey : Bytes := asciiBytes "first_name"
def lastNameKey : Bytes := asciiBytes "last_name"
def usernameKey : Bytes := asciiBytes "username"
def photoUrlKey : Bytes := asciiBytes "photo_url"
def languageCodeKey : Bytes := asciiBytes "language_code"

/-- `user_payload.get(k)` (only ever reached on a dict). -/
def jGetOf : JValue → Bytes → Option JValue
  | .jobj fs, k => jGet fs k
  | _, _ => none

/-- Pydantic check for a `str | None` field fed from `user_payload.get(...)`:
absent or JSON null is `None`, a JSON string passes, anything else is a
`ValidationError`. -/
def strOrNone : Option JValue → Option (Option Bytes)
  | none => some none
  | some .jnull => some none
  | some (.jstr s) => some (some s)
  | some _ => none

/-- `_build_auth_payload`: user payload extraction, `auth_date` parse, and
the `TelegramAuthData(...)` construction with its `auth_date > 0`
validator. Pydantic's `ValidationError` (and the `TypeError`/`ValueError`
of the `in` / `[...]` / `int(...)` operators on odd JSON shapes) is *not*
an `HTTPException` and escapes uncaught. -/
def build_auth_payload (params : List (Bytes × Bytes)) : Except PyFail TelegramAuthData :=
  match dictGet params userKey with
  | none => .error (.http "missing_user_payload")
  | some userRaw =>
    if userRaw = [] then .error (.http "missing_user_payload")
    else
      match json_loads userRaw with
      | none => .error (.http "invalid_user_payload")
      | some userPayload =>
        match pyContainsId userPayload with
        | .error e => .error e
        | .ok false => .error (.http "missing_user_id")
        | .ok true =>
          match pyIntOfStr ((dictGet params authDateKey).getD (asciiBytes "0")) with
          | none => .error (.http "invalid_auth_date")
          | some authDate =>
            match pySubscriptId userPayload with
            | .error e => .error e
            | .ok idv =>
              match pyIntOfJ idv with
              | .error e => .error e
              | .ok idInt =>
                match strOrNone (jGetOf userPayload firstNameKey),
                      strOrNone (jGetOf userPayload lastNameKey),
                      strOrNone (jGetOf userPayload usernameKey),
                      strOrNone (jGetOf userPayload photoUrlKey),
                      strOrNone (jGetOf userPayload languageCodeKey) with
                | some fn, some ln, some un, some pu, some lc =>
                  if authDate ≤ 0 then .error (.exc "ValidationError")
                  else
                    .ok ⟨idInt, fn, ln, un, pu, authDate,
                         (dictGet params hashKey).getD [], lc⟩
                | _, _, _, _, _ => .error (.exc "ValidationError")

/-- `ALLOWED_TIME_SKEW_SECONDS = 60 * 60`. -/
def ALLOWED_TIME_SKEW_SECONDS : Int := 3600

/-- `verify_and_destructure_init_data` (the destructured params add
nothing, so only the `TelegramAuthData` outcome is kept): reject empty
input, parse, require `hash`, compare the computed hex HMAC with the
provided one, build the auth payload, and check the freshness window
`now - auth_date > 3600`. -/
def verify_and_destructure_init_data (botToken : Bytes) (now : Int) (raw : Bytes) :
    VerifyOutcome :=
  if raw = [] then .unauthorized "missing_telegram_payload"
  else
    let params := parse_qsl raw
    match dictGet params hashKey with
    | none => .unauthorized "invalid_payload"
    | some provided =>
      if compute_hash (build_data_check_string params) botToken = provided then
        match build_auth_payload params with
        | .error (.http d) => .unauthorized d
        | .error (.exc e) => .unhandled e
        | .ok auth =>
          if now - auth.auth_date > ALLOWED_TIME_SKEW_SECONDS then
            .unauthorized "auth_expired"
          else .ok auth
      else .unauthorized "invalid_signature"

/-- `verify_telegram_init_data`. -/
def verify_telegram_init_data (botToken : Bytes) (now : Int) (raw : Bytes) :
    VerifyOutcome :=
  verify_and_destructure_init_data botToken now raw

/-! ## `RedisRateLimiter` (`app/core/rate_limiter.py`)

Redis is modelled as a list of `(key, count, deadline)` entries; a
deadline of `none` means no TTL, and a key is alive at `now` while
`now < deadline`. `INCR` creates an absent key at 1 with no TTL;
`EXPIRE` stamps an absolute deadline. -/

abbrev RedisEntry := String × Nat × Option Nat

abbrev RedisStore := List RedisEntry

def entryAlive (now : Nat) (e : RedisEntry) : Bool :=
  match e.2.2 with
  | none => true
  | some d => now < d

/-- Drop expired keys (how expiry is observable at time `now`). -/
def purge (now : Nat) (st : RedisStore) : RedisStore := st.filter (entryAlive now)

def findEntry : RedisStore → String → Option (Nat × Option Nat)
  | [], _ => none
  | (k, c, d) :: rest, key => if k = key then some (c, d) else findEntry rest key

def setCount : RedisStore → String → Nat → RedisStore
  | [], _, _ => []
  | (k, c, d) :: rest, key, n =>
    if k = key then (k, n, d) :: rest else (k, c, d) :: setCount rest key n

/-- `redis.incr(key)` at time `now`: post-increment value and new store. -/
def redisIncr (st : RedisStore) (now : Nat) (key : String) : Nat × RedisStore :=
  let st1 := purge now st
  match findEntry st1 key with
  | some (c, _) => (c + 1, setCount st1 key (c + 1))
  | none => (1, st1 ++ [(key, 1, none)])

/-- `redis.expire(key, seconds)` issued at time `now`. -/
def redisExpire (st : RedisStore) (key : String) (deadline : Nat) : RedisStore :=
  st.map fun e => if e.1 = key then (e.1, e.2.1, some deadline) else e

/-- `RedisRateLimiter("rl").allow(key, limit, window_seconds)`: increment,
set the expiry iff the post-increment value is exactly 1, and allow iff the
post-increment count is at most `limit`. -/
def rl_allow (st : RedisStore) (now : Nat) (key : String) (limit window : Nat) :
    Bool × RedisStore :=
  let redisKey := "rl:" ++ key
  let r := redisIncr st now redisKey
  let st2 := if r.1 = 1 then redisExpire r.2 redisKey (now + window) else r.2
  (decide (r.1 ≤ limit), st2)

/-- The live counter value for a key (0 when absent or expired). -/
def redisCount (st : RedisStore) (now : Nat) (key : String) : Nat :=
  match findEntry (purge now st) key with
  | some (c, _) => c
  | none => 0

/-! ## Identity resolution (`_is_trusted_proxy`, `default_identifier`) -/

/-- An entry of the configured trusted-proxy network list, as an IPv4 CIDR
network (`ipaddress.ip_network`). -/
structure Ipv4Net where
  addr : Nat
  maskBits : Nat
deriving DecidableEq

def isDigitChar (c : Char) : Bool := '0' ≤ c ∧ c ≤ '9'

def splitOnChar (sep : Char) : List Char → List (List Char)
  | [] => [[]]
  | c :: rest =>
    match splitOnChar sep rest with
    | [] => if c = sep then [[], []] else [[c]]
    | h :: t => if c = sep then [] :: h :: t else (c :: h) :: t

/-- One dotted-quad octet: 1–3 digits, no leading zero, at most 255. -/
def octetVal (cs : List Char) : Option Nat :=
  if cs = [] then none
  else if ¬ cs.all isDigitChar then none
  else if 3 < cs.length then none
  else if 1 < cs.length ∧ cs.headD '0' = '0' then none
  else
    let v := cs.foldl (fun acc c => acc * 10 + (c.toNat - 48)) 0
    if v ≤ 255 then some v else none

/-- `ipaddress.ip_address` restricted to IPv4 dotted-quad syntax (the
trusted-proxy networks modelled here are IPv4). -/
def parseIpv4 (s : String) : Option Nat :=
  match (splitOnChar '.' s.data).mapM octetVal with
  | some [a, b, c, d] => some (((a * 256 + b) * 256 + c) * 256 + d)
  | _ => none

def inNet (ip : Nat) (n : Ipv4Net) : Bool :=
  decide (ip >>> (32 - n.maskBits) = n.addr >>> (32 - n.maskBits))

/-- `_is_trusted_proxy`: false on a missing/empty host or an empty network
list or an unparsable address; otherwise membership in any configured
network. -/
def is_trusted_proxy (trusted : List Ipv4Net) (host : Option String) : Bool :=
  match host with
  | none => false
  | some h =>
    if h = "" then false
    else if trusted.isEmpty then false
    else
      match parseIpv4 h with
      | none => false
      | some ip => trusted.any (inNet ip)

/-- The request surface `default_identifier` reads: the direct client
address and the `X-Forwarded-For` header value. -/
structure HttpRequest where
  clientHost : Option String
  forwardedFor : Option String
deriving DecidableEq

def isStripChar (c : Char) : Bool :=
  c = ' ' ∨ c = '\t' ∨ c = '\n' ∨ c = '\r' ∨ c.toNat = 11 ∨ c.toNat = 12

/-- Python `str.strip()`. -/
def pyStrip (s : String) : String :=
  String.mk (((s.data.dropWhile isStripChar).reverse.dropWhile isStripChar).reverse)

/-- `forwarded.split(",")[0].strip()`. -/
def forwarded_leftmost (req : HttpRequest) : String :=
  pyStrip (String.mk ((req.forwardedFor.getD "").data.takeWhile (· ≠ ',')))

/-- The fallback of `default_identifier`: the direct client address, or
`"unknown"` when missing/empty. -/
def direct_client_identity (req : HttpRequest) : String :=
  match req.clientHost with
  | none => "unknown"
  | some h => if h = "" then "unknown" else h

/-- `default_identifier`: the leftmost forwarded-for entry when the header
is truthy (present *and non-empty*) and the direct client is a trusted
proxy; otherwise the direct client address (or `"unknown"`). -/
def default_identifier (trusted : List Ipv4Net) (req : HttpRequest) : String :=
  let forwardedTruthy : Bool := match req.forwardedFor with
    | some f => decide (f ≠ "")
    | none => false
  if forwardedTruthy && is_trusted_proxy trusted req.clientHost then
    forwarded_leftmost req
  else direct_client_identity req

/-- C6's words, followed literally: the leftmost forwarded-for entry is
used if and only if a forwarded-for header *is present* (mere presence,
an empty value included) and the client is trusted. -/
def spec_resolved_identity (trusted : List Ipv4Net) (req : HttpRequest) : String :=
  if req.forwardedFor.isSome && is_trusted_proxy trusted req.clientHost then
    forwarded_leftmost req
  else direct_client_identity req

/-! ## Users (`app/models/user.py`, `app/repositories/user.py`,
`app/services/user.py`, `app/schemas/user.py`) -/

/-- The persisted `User` row. `app_seconds_spent` is nullable (the service
reads it as `user.app_seconds_spent or 0`). -/
structure User where
  id : Int
  telegram_id : Int
  username : Option Bytes
  first_name : Option Bytes
  last_name : Option Bytes
  locale : Bytes
  avatar_url : Option Bytes
  is_admin : Bool
  app_seconds_spent : Option Int
deriving DecidableEq

/-- `UserPublic`. -/
structure UserPublic where
  id : Int
  username : Option Bytes
  first_name : Option Bytes
  last_name : Option Bytes
  locale : Bytes
  is_admin : Bool
  app_seconds_spent : Int
deriving DecidableEq

/-- `UserService._to_public`. -/
def user_to_public (u : User) : UserPublic :=
  ⟨u.id, u.username, u.first_name, u.last_name, u.locale, u.is_admin,
   (u.app_seconds_spent).getD 0⟩

/-- The users table plus the autoincrement id sequence. -/
structure UserStore where
  users : List User
  nextId : Int
deriving DecidableEq

def findByTelegramId : List User → Int → Option User
  | [], _ => none
  | u :: rest, tid => if u.telegram_id = tid then some u else findByTelegramId rest tid

def findById : List User → Int → Option User
  | [], _ => none
  | u :: rest, uid => if u.id = uid then some u else findById rest uid

/-- `UserRepository.get_by_telegram_id`. -/
def get_by_telegram_id (st : UserStore) (tid : Int) : Option User :=
  findByTelegramId st.users tid

/-- `UserRepository.get_by_id`. -/
def get_by_id (st : UserStore) (uid : Int) : Option User := findById st.users uid

/-- `UserService._ensure_user`: create on a missing Telegram id (admin flag
from the allowlist, usage counter 0); otherwise write each profile field
only on observed difference; the returned flag is `created or updated` —
whether `session.commit()` was issued. -/
def ensure_user (adminIds : List Int) (st : UserStore) (tid : Int)
    (username first last : Option Bytes) (locale : Bytes) (avatar : Option Bytes) :
    User × UserStore × Bool :=
  let shouldBeAdmin := adminIds.contains tid
  match get_by_telegram_id st tid with
  | none =>
    let u : User := ⟨st.nextId, tid, username, first, last, locale, avatar,
                     shouldBeAdmin, some 0⟩
    (u, ⟨st.users ++ [u], st.nextId + 1⟩, true)
  | some u0 =>
    let updated := (!decide (u0.username = username)) || (!decide (u0.first_name = first))
        || (!decide (u0.last_name = last)) || (!decide (u0.locale = locale))
        || (!decide (u0.avatar_url = avatar)) || (!decide (u0.is_admin = shouldBeAdmin))
    if updated then
      let u1 := { u0 with
                    username := username
                    first_name := first
                    last_name := last
                    locale := locale
                    avatar_url := avatar
                    is_admin := shouldBeAdmin }
      (u1, ⟨st.users.map fun e => if e.telegram_id = tid then u1 else e, st.nextId⟩, true)
    else (u0, st, false)

/-- `UserService.get_or_create`. -/
def get_or_create (adminIds : List Int) (st : UserStore) (tid : Int)
    (username first last : Option Bytes) (locale : Bytes) (avatar : Option Bytes) :
    UserPublic × UserStore :=
  let r := ensure_user adminIds st tid username first last locale avatar
  (user_to_public r.1, r.2.1)

/-- `UserService.add_usage_time`: upsert the profile, then set
`app_seconds_spent = (app_seconds_spent or 0) + seconds` and commit. -/
def add_usage_time (adminIds : List Int) (st : UserStore) (tid seconds : Int)
    (username first last : Option Bytes) (locale : Bytes) (avatar : Option Bytes) :
    UserPublic × UserStore :=
  let r := ensure_user adminIds st tid username first last locale avatar
  let u2 := { r.1 with app_seconds_spent := some ((r.1.app_seconds_spent).getD 0 + seconds) }
  (user_to_public u2,
   ⟨r.2.1.users.map fun e => if e.telegram_id = tid then u2 else e, r.2.1.nextId⟩)

/-- `UserUsageUpdate.validate_seconds`: positive and at most `6 * 60 * 60`. -/
def validate_seconds (v : Int) : Except String Int :=
  if v ≤ 0 then .error "seconds must be positive"
  else if 6 * 60 * 60 < v then .error "seconds exceeds maximum session duration"
  else .ok v

/-- `POST /users/me/usage`: the request body is validated by
`UserUsageUpdate`, then the service adds the usage time with the
upsert arguments the route passes (`locale or "en"`, avatar from
`photo_url`). -/
def report_usage_time (adminIds : List Int) (st : UserStore) (tg : TelegramAuthData)
    (seconds : Int) : Except String (UserPublic × UserStore) :=
  match validate_seconds seconds with
  | .error e => .error e
  | .ok s =>
    .ok (add_usage_time adminIds st tg.id s tg.username tg.first_name tg.last_name
          (tg.locale.getD (asciiBytes "en")) tg.photo_url)

/-- The upsert `authenticate_telegram_miniapp` (login) performs after
verification succeeds. -/
def login_upsert (adminIds : List Int) (st : UserStore) (tg : TelegramAuthData) :
    UserPublic × UserStore :=
  get_or_create adminIds st tg.id tg.username tg.first_name tg.last_name
    (tg.locale.getD (asciiBytes "en")) tg.photo_url

/-- `GET /users/me` (`get_current_user` in `routes/users.py`): the same
`get_or_create` call, on every request. -/
def get_me_route (adminIds : List Int) (st : UserStore) (tg : TelegramAuthData) :
    UserPublic × UserStore :=
  get_or_create adminIds st tg.id tg.username tg.first_name tg.last_name
    (tg.locale.getD (asciiBytes "en")) tg.photo_url

/-! ## The refresh endpoint (`refresh_tokens` in `routes/auth.py`) -/

/-- The decoded JWT claims the endpoint reads: the `type` claim and the
`sub` claim (any JSON value, absent allowed). -/
structure JwtPayload where
  typ : Option String
  sub : Option JValue

/-- How the endpoint answers: a fresh pair for `user`, or an
`HTTPException` with a status code and sanitized detail. -/
inductive RefreshOutcome where
  | ok (user : UserPublic)
  | failure (statusCode : Nat) (detail : String)
deriving DecidableEq

/-- `refresh_tokens`: decode (failure → 401 `invalid_refresh_token`),
require `type == "refresh"` (else 401 `invalid_refresh_token`), parse
`sub` as an int (`TypeError`/`ValueError` → 401 `invalid_refresh_token`),
then resolve the user id (missing → 401 `user_not_found`). -/
def refresh_tokens (decoded : Except Unit JwtPayload) (st : UserStore) :
    RefreshOutcome :=
  match decoded with
  | .error _ => .failure 401 "invalid_refresh_token"
  | .ok p =>
    if p.typ ≠ some "refresh" then .failure 401 "invalid_refresh_token"
    else
      match p.sub with
      | none => .failure 401 "invalid_refresh_token"
      | some sv =>
        match pyIntOfJ sv with
        | .error _ => .failure 401 "invalid_refresh_token"
        | .ok uid =>
          match get_by_id st uid with
          | none => .failure 401 "user_not_found"
          | some u => .ok (user_to_public u)

/-- The status code of a refresh outcome (`none` on success). -/
def refreshStatus : RefreshOutcome → Option Nat
  | .ok _ => none
  | .failure s _ => some s

set_option maxRecDepth 2000000

/-! ## Concrete signed payloads

`sampleRaw` is a complete init-data blob correctly signed (under
`_compute_hash`) for the bot token `"token"` with `auth_date=1` and user
`{"id":7}`; `sampleZeroRaw` is the same payload correctly signed with
`auth_date=0`. -/

def sampleTok : Bytes := asciiBytes "token"

def sampleHashHex : Bytes :=
  asciiBytes "94dd42ad1a89baf32e45a6ed7f42f46fbe0179fb045aea5c079274756c9ae644"

def sampleRaw : Bytes :=
  asciiBytes "auth_date=1&user=%7B%22id%22%3A7%7D&hash=94dd42ad1a89baf32e45a6ed7f42f46fbe0179fb045aea5c079274756c9ae644"

def sampleUserRaw : Bytes := asciiBytes "\x7b\x22id\x22:7\x7d"

def sampleAuth : TelegramAuthData :=
  ⟨7, none, none, none, none, 1, sampleHashHex, none⟩

def sampleZeroRaw : Bytes :=
  asciiBytes "auth_date=0&user=%7B%22id%22%3A7%7D&hash=158a72b4e19aead90ef7de15a1811d023ea9a1f55ffadbf27f1a3621e2791099"

/-! ## C2 — error sanitization -/

/-- Claim C2 (code bug): a correctly signed payload whose `auth_date`
parses to 0 does *not* surface as a sanitized 401 reason code — the
pydantic `auth_date > 0` validator raises a `ValidationError` that neither
`verify_and_destructure_init_data` nor the route's
`except HTTPException` handler catches, so it escapes as a raw internal
error, contradicting the propagation policy the spec mandates. -/
theorem auth_date_zero_escapes_unhandled :
    verify_and_destructure_init_data sampleTok 100 sampleZeroRaw
      = .unhandled "ValidationError" := by
  rfl

/-! ## C5 — missing `hash` -/

/-- Claim C5, amended: for every *non-empty* raw init-data string whose
parse has no `hash` key, verification fails with the `invalid_payload`
reason code (the empty string takes the earlier `missing_telegram_payload`
branch instead). -/
theorem missing_hash_invalid_payload (botToken raw : Bytes) (now : Int)
    (hne : raw ≠ []) (hno : dictGet (parse_qsl raw) hashKey = none) :
    verify_and_destructure_init_data botToken now raw
      = .unauthorized "invalid_payload" := by
  unfold verify_and_destructure_init_data
  rw [if_neg hne]
  simp only [hno]

theorem missing_hash_invalid_payload_witness :
    (asciiBytes "a=b" ≠ ([] : Bytes))
    ∧ dictGet (parse_qsl (asciiBytes "a=b")) hashKey = none
    ∧ verify_and_destructure_init_data sampleTok 0 (asciiBytes "a=b")
        = .unauthorized "invalid_payload" :=
  ⟨by decide, rfl, missing_hash_invalid_payload sampleTok (asciiBytes "a=b") 0 (by decide) rfl⟩

/-- Claim C5, counterexample: on the empty raw string the verifier fails
with `missing_telegram_payload`, not with the `invalid_payload` code the
claim asserts for it. -/
theorem empty_init_data_counterexample :
    verify_and_destructure_init_data sampleTok 0 []
        = .unauthorized "missing_telegram_payload"
    ∧ verify_and_destructure_init_data sampleTok 0 []
        ≠ .unauthorized "invalid_payload" :=
  ⟨rfl, by decide⟩

/-! ## C6 — rate-limit identity resolution -/

/-- Claim C6, amended: the identity is the leftmost `X-Forwarded-For`
entry exactly when the header is present *with a non-empty value* and the
direct client address is a trusted proxy; otherwise (in particular for
every untrusted client, whatever the header says) it is the direct client
address, `"unknown"` when that is missing. -/
theorem identifier_resolution (trusted : List Ipv4Net) (req : HttpRequest) :
    default_identifier trusted req
      = (if (match req.forwardedFor with
              | some f => decide (f ≠ "")
              | none => false)
            && is_trusted_proxy trusted req.clientHost
         then forwarded_leftmost req
         else direct_client_identity req)
    ∧ (is_trusted_proxy trusted req.clientHost = false
        → default_identifier trusted req = direct_client_identity req) := by
  refine ⟨rfl, fun h => ?_⟩
  simp only [default_identifier, h, Bool.and_false]
  rfl

theorem identifier_resolution_witness :
    is_trusted_proxy [] (some "9.9.9.9") = false
    ∧ default_identifier [] ⟨some "9.9.9.9", some "1.2.3.4"⟩
        = direct_client_identity ⟨some "9.9.9.9", some "1.2.3.4"⟩ :=
  ⟨rfl, (identifier_resolution [] ⟨some "9.9.9.9", some "1.2.3.4"⟩).2 rfl⟩

/-- Claim C6, counterexample: with every address trusted (`0.0.0.0/0`) and
an `X-Forwarded-For` header *present but empty*, the claim's literal
resolution rule substitutes the (empty) leftmost header entry, while the
code's truthiness test skips the header and keeps the direct client
address. -/
theorem forwarded_header_presence_counterexample :
    default_identifier [⟨0, 0⟩] ⟨some "9.9.9.9", some ""⟩ = "9.9.9.9"
    ∧ spec_resolved_identity [⟨0, 0⟩] ⟨some "9.9.9.9", some ""⟩ = ""
    ∧ default_identifier [⟨0, 0⟩] ⟨some "9.9.9.9", some ""⟩
        ≠ spec_resolved_identity [⟨0, 0⟩] ⟨some "9.9.9.9", some ""⟩ := by
  refine ⟨rfl, rfl, by decide⟩

/-! ## C7 — refresh for a missing user -/

/-- Claim C7: a validly decoded refresh-type token whose subject parses to
an id with no matching user is rejected with status 401 — the same
unauthorized status every other failure of the refresh endpoint carries
(decode failure and wrong token type shown alongside), with a fixed
sanitized detail. -/
theorem refresh_missing_user_unauthorized (p : JwtPayload) (st : UserStore)
    (sv : JValue) (uid : Int)
    (htyp : p.typ = some "refresh") (hsub : p.sub = some sv)
    (hint : pyIntOfJ sv = .ok uid) (hmiss : get_by_id st uid = none) :
    refresh_tokens (.ok p) st = .failure 401 "user_not_found"
    ∧ refreshStatus (refresh_tokens (.ok p) st)
        = refreshStatus (refresh_tokens (.error ()) st)
    ∧ refreshStatus (refresh_tokens (.ok ⟨some "access", p.sub⟩) st) = some 401 := by
  have hmain : refresh_tokens (.ok p) st = .failure 401 "user_not_found" := by
    simp only [refresh_tokens, htyp, hsub, hint, hmiss, ne_eq, not_true_eq_false,
      if_false]
  refine ⟨hmain, by rw [hmain]; rfl, by rfl⟩

theorem refresh_missing_user_witness :
    (some "refresh" = some "refresh")
    ∧ pyIntOfJ (.jstr (asciiBytes "42")) = .ok 42
    ∧ get_by_id ⟨[], 1⟩ 42 = none
    ∧ refresh_tokens (.ok ⟨some "refresh", some (.jstr (asciiBytes "42"))⟩) ⟨[], 1⟩
        = .failure 401 "user_not_found" :=
  ⟨rfl, rfl, rfl,
    (refresh_missing_user_unauthorized ⟨some "refresh", some (.jstr (asciiBytes "42"))⟩
      ⟨[], 1⟩ (.jstr (asciiBytes "42")) 42 rfl rfl rfl rfl).1⟩

/-! ## C1 / C3 — the signature verifier -/

lemma jGet_any {fs : List (Bytes × JValue)} {k : Bytes} {v : JValue}
    (h : jGet fs k = some v) : (fs.any fun p => decide (p.1 = k)) = true := by
  induction fs with
  | nil => exact Option.noConfusion h
  | cons p rest ih =>
    simp only [jGet] at h
    simp only [List.any_cons, Bool.or_eq_true]
    cases hr : jGet rest k with
    | some w =>
      rw [hr] at h
      exact Or.inr (ih (hr.trans h))
    | none =>
      rw [hr] at h
      by_cases hp : p.1 = k
      · exact Or.inl (decide_eq_true hp)
      · rw [if_neg hp] at h
        exact Option.noConfusion h

/-- An `.ok` result of `_build_auth_payload` carries `int(user_payload["id"])`
as its `id`. -/
lemma build_auth_payload_ok_id (params : List (Bytes × Bytes)) (userRaw : Bytes)
    (fs : List (Bytes × JValue)) (idv : JValue) (uid : Int) (auth : TelegramAuthData)
    (huser : dictGet params userKey = some userRaw)
    (hjson : json_loads userRaw = some (.jobj fs))
    (hid : jGet fs idKey = some idv)
    (huid : pyIntOfJ idv = .ok uid)
    (hbuild : build_auth_payload params = .ok auth) :
    auth.id = uid := by
  by_cases hε : userRaw = []
  · rw [hε] at hjson
    exact Option.noConfusion (show (none : Option JValue) = some (.jobj fs) from hjson)
  · simp only [build_auth_payload, huser, if_neg hε, hjson, pyContainsId,
      jGet_any hid, pySubscriptId, hid, huid] at hbuild
    split at hbuild
    all_goals try exact Except.noConfusion hbuild
    split at hbuild
    all_goals try exact Except.noConfusion hbuild
    split at hbuild
    all_goals try exact Except.noConfusion hbuild
    cases hbuild
    rfl

/-- Claim C1, amended: given a payload whose non-signature parts are
well-formed (`hash` present, `user` a JSON object with an `id`,
`_build_auth_payload` succeeding, `auth_date` within the skew window), the
verifier accepts — yielding the payload's `user.id` — exactly when the
provided hash equals the hex HMAC-SHA256 of the canonical check string
under the secret key `HMAC-SHA256(key = "WebAppData", msg = bot token)`
(the bot token is the *message* of the secret-key derivation, not its
key), and any mismatch fails with `invalid_signature`. -/
theorem verifier_accepts_iff_hash_matches
    (botToken raw provided userRaw : Bytes) (now uid : Int)
    (fs : List (Bytes × JValue)) (idv : JValue) (auth : TelegramAuthData)
    (hne : raw ≠ [])
    (hhash : dictGet (parse_qsl raw) hashKey = some provided)
    (huser : dictGet (parse_qsl raw) userKey = some userRaw)
    (hjson : json_loads userRaw = some (.jobj fs))
    (hid : jGet fs idKey = some idv)
    (huid : pyIntOfJ idv = .ok uid)
    (hbuild : build_auth_payload (parse_qsl raw) = .ok auth)
    (hts : now - auth.auth_date ≤ ALLOWED_TIME_SKEW_SECONDS) :
    (verify_and_destructure_init_data botToken now raw = .ok auth
        ↔ provided = compute_hash (build_data_check_string (parse_qsl raw)) botToken)
    ∧ auth.id = uid
    ∧ (provided ≠ compute_hash (build_data_check_string (parse_qsl raw)) botToken
        → verify_and_destructure_init_data botToken now raw
            = .unauthorized "invalid_signature") := by
  have hid' : auth.id = uid :=
    build_auth_payload_ok_id _ _ _ _ _ _ huser hjson hid huid hbuild
  have hv : verify_and_destructure_init_data botToken now raw
      = if compute_hash (build_data_check_string (parse_qsl raw)) botToken = provided
        then .ok auth else .unauthorized "invalid_signature" := by
    unfold verify_and_destructure_init_data
    rw [if_neg hne]
    simp only [hhash]
    by_cases hc :
        compute_hash (build_data_check_string (parse_qsl raw)) botToken = provided
    · simp only [if_pos hc, hbuild]
      rw [if_neg (not_lt.mpr hts)]
    · simp only [if_neg hc]
  refine ⟨?_, hid', fun hne' => ?_⟩
  · rw [hv]
    by_cases hc :
        compute_hash (build_data_check_string (parse_qsl raw)) botToken = provided
    · rw [if_pos hc]
      exact ⟨fun _ => hc.symm, fun _ => rfl⟩
    · rw [if_neg hc]
      exact ⟨fun h => absurd h (by simp), fun h => absurd h.symm hc⟩
  · rw [hv, if_neg fun h => hne' h.symm]

theorem verifier_accepts_iff_hash_matches_witness :
    sampleRaw ≠ []
    ∧ dictGet (parse_qsl sampleRaw) hashKey = some sampleHashHex
    ∧ dictGet (parse_qsl sampleRaw) userKey = some sampleUserRaw
    ∧ json_loads sampleUserRaw = some (.jobj [(idKey, .jint 7)])
    ∧ jGet [(idKey, .jint 7)] idKey = some (.jint 7)
    ∧ pyIntOfJ (.jint 7) = .ok 7
    ∧ build_auth_payload (parse_qsl sampleRaw) = .ok sampleAuth
    ∧ (1 : Int) - sampleAuth.auth_date ≤ ALLOWED_TIME_SKEW_SECONDS
    ∧ ((verify_and_destructure_init_data sampleTok 1 sampleRaw = .ok sampleAuth
          ↔ sampleHashHex
              = compute_hash (build_data_check_string (parse_qsl sampleRaw)) sampleTok)
        ∧ sampleAuth.id = 7
        ∧ (sampleHashHex
              ≠ compute_hash (build_data_check_string (parse_qsl sampleRaw)) sampleTok
            → verify_and_destructure_init_data sampleTok 1 sampleRaw
                = .unauthorized "invalid_signature")) :=
  ⟨by decide, rfl, rfl, rfl, rfl, rfl, rfl, by decide,
    verifier_accepts_iff_hash_matches sampleTok sampleRaw sampleHashHex sampleUserRaw
      1 7 [(idKey, .jint 7)] (.jint 7) sampleAuth (by decide) rfl rfl rfl rfl rfl rfl
      (by decide)⟩

/-- Claim C1, counterexample: on a valid concrete payload the verifier
accepts, yet the provided hash differs from the hash formula as the claim
words it — the secret key `HMAC-SHA256(key = bot token, msg = "WebAppData")`
("of the literal byte string WebAppData *keyed by the bot token*"). The code
derives the secret key with the opposite argument order
(`hmac.new(b"WebAppData", bot_token.encode(), sha256)`). -/
theorem secret_key_argument_order_counterexample :
    verify_and_destructure_init_data sampleTok 1 sampleRaw = .ok sampleAuth
    ∧ dictGet (parse_qsl sampleRaw) hashKey
        ≠ some (spec_claimed_hash (build_data_check_string (parse_qsl sampleRaw))
                  sampleTok) :=
  ⟨by rfl, by decide⟩

/-- Claim C3: for a correctly signed, well-formed payload the verifier
rejects with `auth_expired` exactly when `now - auth_date > 3600`, accepts
exactly when `now - auth_date ≤ 3600`, and — with no lower bound on the
skew — accepts every future-dated payload. -/
theorem auth_expired_iff_skew_exceeded
    (botToken raw provided : Bytes) (now : Int) (auth : TelegramAuthData)
    (hne : raw ≠ [])
    (hhash : dictGet (parse_qsl raw) hashKey = some provided)
    (hmatch : provided = compute_hash (build_data_check_string (parse_qsl raw)) botToken)
    (hbuild : build_auth_payload (parse_qsl raw) = .ok auth) :
    (verify_and_destructure_init_data botToken now raw = .unauthorized "auth_expired"
        ↔ ALLOWED_TIME_SKEW_SECONDS < now - auth.auth_date)
    ∧ (verify_and_destructure_init_data botToken now raw = .ok auth
        ↔ now - auth.auth_date ≤ ALLOWED_TIME_SKEW_SECONDS)
    ∧ (now < auth.auth_date
        → verify_and_destructure_init_data botToken now raw = .ok auth) := by
  have hv : verify_and_destructure_init_data botToken now raw
      = if ALLOWED_TIME_SKEW_SECONDS < now - auth.auth_date
        then .unauthorized "auth_expired" else .ok auth := by
    unfold verify_and_destructure_init_data
    rw [if_neg hne]
    simp only [hhash, if_pos hmatch.symm, hbuild]
  rw [hv]
  by_cases h : ALLOWED_TIME_SKEW_SECONDS < now - auth.auth_date
  · rw [if_pos h]
    refine ⟨⟨fun _ => h, fun _ => rfl⟩,
      ⟨fun hk => absurd hk (by simp), fun hk => absurd h (not_lt.mpr hk)⟩,
      fun hf => absurd h (by simp only [ALLOWED_TIME_SKEW_SECONDS]; omega)⟩
  · rw [if_neg h]
    exact ⟨⟨fun hk => absurd hk (by simp), fun hk => absurd hk h⟩,
      ⟨fun _ => not_lt.mp h, fun _ => rfl⟩, fun _ => rfl⟩

theorem auth_expired_iff_skew_exceeded_witness :
    sampleRaw ≠ []
    ∧ dictGet (parse_qsl sampleRaw) hashKey = some sampleHashHex
    ∧ sampleHashHex
        = compute_hash (build_data_check_string (parse_qsl sampleRaw)) sampleTok
    ∧ build_auth_payload (parse_qsl sampleRaw) = .ok sampleAuth
    ∧ (3602 : Int) - sampleAuth.auth_date = 3601
    ∧ verify_and_destructure_init_data sampleTok 3602 sampleRaw
        = .unauthorized "auth_expired"
    ∧ (3600 : Int) - sampleAuth.auth_date = 3599
    ∧ verify_and_destructure_init_data sampleTok 3600 sampleRaw = .ok sampleAuth :=
  ⟨by decide, rfl, rfl, rfl, by decide,
    (auth_expired_iff_skew_exceeded sampleTok sampleRaw sampleHashHex 3602 sampleAuth
      (by decide) rfl rfl rfl).1.mpr (by decide),
    by decide,
    (auth_expired_iff_skew_exceeded sampleTok sampleRaw sampleHashHex 3600 sampleAuth
      (by decide) rfl rfl rfl).2.1.mpr (by decide)⟩

/-! ## C4 — the fixed-window rate limiter -/

lemma findEntry_setCount (st : RedisStore) (k : String) (n : Nat) :
    findEntry (setCount st k n) k = (findEntry st k).map fun cd => (n, cd.2) := by
  induction st with
  | nil => rfl
  | cons e rest ih =>
    obtain ⟨k', c, d⟩ := e
    by_cases h : k' = k
    · simp [setCount, findEntry, h]
    · simp [setCount, findEntry, h, ih]

lemma findEntry_append_none (st : RedisStore) (k : String) (c : Nat) (d : Option Nat)
    (h : findEntry st k = none) : findEntry (st ++ [(k, c, d)]) k = some (c, d) := by
  induction st with
  | nil => simp [findEntry]
  | cons e rest ih =>
    obtain ⟨k', c', d'⟩ := e
    simp only [findEntry] at h
    simp only [List.cons_append, findEntry]
    by_cases hk : k' = k
    · rw [if_pos hk] at h
      exact Option.noConfusion h
    · rw [if_neg hk] at h ⊢
      exact ih h

lemma findEntry_expire (st : RedisStore) (k : String) (dl : Nat) :
    findEntry (redisExpire st k dl) k
      = (findEntry st k).map fun cd => (cd.1, some dl) := by
  induction st with
  | nil => rfl
  | cons e rest ih =>
    obtain ⟨k', c, d⟩ := e
    by_cases h : k' = k
    · subst h
      simp only [redisExpire, List.map_cons]
      simp [findEntry]
    · simp only [redisExpire, List.map_cons]
      rw [if_neg (show ¬ (k', c, d).1 = k from h)]
      simp only [findEntry]
      rw [if_neg h]
      rw [if_neg h]
      simpa [redisExpire] using ih

def rlDemo1 : Bool × RedisStore := rl_allow [] 0 "client" 3 60
def rlDemo2 : Bool × RedisStore := rl_allow rlDemo1.2 0 "client" 3 60
def rlDemo3 : Bool × RedisStore := rl_allow rlDemo2.2 0 "client" 3 60
def rlDemo4 : Bool × RedisStore := rl_allow rlDemo3.2 0 "client" 3 60
def rlDemo5 : Bool × RedisStore := rl_allow rlDemo4.2 60 "client" 3 60

/-- Claim C4: each `allow` call increments the key's counter (from its
live pre-call value), stamps the expiry `window_seconds` ahead exactly when
the post-increment value is 1 (keeping the existing deadline otherwise),
and returns true iff the post-increment count is at most `limit`; with
`limit = 3, window = 60`, four calls in one window return
`true, true, true, false`, and after the window expires the counter resets
and the next call returns `true` again. -/
theorem rate_limiter_allow_semantics (st : RedisStore) (now : Nat) (key : String)
    (limit window : Nat) :
    ((rl_allow st now key limit window).1
        = decide (redisCount st now ("rl:" ++ key) + 1 ≤ limit))
    ∧ (findEntry (rl_allow st now key limit window).2 ("rl:" ++ key)
        = some (redisCount st now ("rl:" ++ key) + 1,
            if redisCount st now ("rl:" ++ key) = 0 then some (now + window)
            else (findEntry (purge now st) ("rl:" ++ key)).bind fun cd => cd.2))
    ∧ [rlDemo1.1, rlDemo2.1, rlDemo3.1, rlDemo4.1, rlDemo5.1]
        = [true, true, true, false, true] := by
  refine ⟨?_, ?_, by decide⟩
  · unfold rl_allow redisIncr redisCount
    cases h : findEntry (purge now st) ("rl:" ++ key) with
    | none => simp [h]
    | some cd =>
      obtain ⟨c, d⟩ := cd
      simp [h]
  · unfold rl_allow redisIncr redisCount
    cases h : findEntry (purge now st) ("rl:" ++ key) with
    | none => simp [h, findEntry_expire, findEntry_append_none _ _ _ _ h]
    | some cd =>
      obtain ⟨c, d⟩ := cd
      by_cases hc : c = 0
      · subst hc
        simp [h, findEntry_expire, findEntry_setCount]
      · have hc1 : ¬ (c + 1 = 1) := by omega
        simp [h, hc, hc1, findEntry_setCount]

/-! ## C8 — usage reporting -/

/-- The user's `app_seconds_spent` before a request, read as the service
reads it (`or 0`), 0 for a not-yet-created user. -/
def prior_app_seconds (st : UserStore) (tid : Int) : Int :=
  match get_by_telegram_id st tid with
  | some u => (u.app_seconds_spent).getD 0
  | none => 0

lemma ensure_user_app (adminIds : List Int) (st : UserStore) (tid : Int)
    (username first last : Option Bytes) (locale : Bytes) (avatar : Option Bytes) :
    (ensure_user adminIds st tid username first last locale avatar).1.app_seconds_spent
      = match get_by_telegram_id st tid with
        | some u => u.app_seconds_spent
        | none => some 0 := by
  unfold ensure_user
  cases h : get_by_telegram_id st tid with
  | none => simp only [h]
  | some u0 =>
    simp only [h]
    split <;> rfl

/-- Claim C8: a usage report outside `1..21600` seconds is rejected by the
schema validator (`seconds = 0` and `seconds = 21601` shown), and every
accepted value adds exactly `seconds` to the user's previous
`app_seconds_spent`. -/
theorem usage_reporting_bounds_and_increment (adminIds : List Int) (st : UserStore)
    (tg : TelegramAuthData) (seconds : Int)
    (h1 : 1 ≤ seconds) (h2 : seconds ≤ 21600) :
    report_usage_time adminIds st tg 0 = .error "seconds must be positive"
    ∧ report_usage_time adminIds st tg 21601
        = .error "seconds exceeds maximum session duration"
    ∧ ∃ pr, report_usage_time adminIds st tg seconds = .ok pr
        ∧ pr.1.app_seconds_spent = prior_app_seconds st tg.id + seconds := by
  refine ⟨by rfl, by rfl, ?_⟩
  have hval : validate_seconds seconds = .ok seconds := by
    unfold validate_seconds
    rw [if_neg (by omega), if_neg (by omega)]
  refine ⟨_, by unfold report_usage_time; rw [hval], ?_⟩
  unfold add_usage_time user_to_public
  simp only [Option.getD_some, ensure_user_app, prior_app_seconds]
  cases h : get_by_telegram_id st tg.id with
  | none => simp only [h, Option.getD_some]
  | some u0 => simp only [h]

def user100 : User :=
  ⟨1, 5, some (asciiBytes "u"), none, none, asciiBytes "en", none, false, some 100⟩

def store100 : UserStore := ⟨[user100], 2⟩

def tgSample : TelegramAuthData :=
  ⟨5, none, none, some (asciiBytes "u"), none, 1, [], none⟩

theorem usage_reporting_bounds_and_increment_witness :
    (1 : Int) ≤ 3600 ∧ (3600 : Int) ≤ 21600
    ∧ (report_usage_time [] store100 tgSample 0 = .error "seconds must be positive"
        ∧ report_usage_time [] store100 tgSample 21601
            = .error "seconds exceeds maximum session duration"
        ∧ ∃ pr, report_usage_time [] store100 tgSample 3600 = .ok pr
            ∧ pr.1.app_seconds_spent = prior_app_seconds store100 tgSample.id + 3600)
    ∧ prior_app_seconds store100 tgSample.id + 3600 = 3700 :=
  ⟨by decide, by decide,
    usage_reporting_bounds_and_increment [] store100 tgSample 3600 (by decide) (by decide),
    by decide⟩

/-! ## C9 — idempotent upsert -/

/-- Claim C9: `_ensure_user` skips the commit exactly when the user already
exists and every supplied profile field (username, first/last name, locale,
avatar, recomputed admin status) equals the stored one — and in that case
the user store is left untouched; any difference, or a fresh user, commits. -/
theorem upsert_commit_iff_profile_changed (adminIds : List Int) (st : UserStore)
    (tid : Int) (username first last : Option Bytes) (locale : Bytes)
    (avatar : Option Bytes) :
    ((ensure_user adminIds st tid username first last locale avatar).2.2 = false
      ↔ ∃ u0, get_by_telegram_id st tid = some u0
          ∧ u0.username = username ∧ u0.first_name = first ∧ u0.last_name = last
          ∧ u0.locale = locale ∧ u0.avatar_url = avatar
          ∧ u0.is_admin = adminIds.contains tid)
    ∧ ((ensure_user adminIds st tid username first last locale avatar).2.2 = false
        → (ensure_user adminIds st tid username first last locale avatar).2.1 = st) := by
  unfold ensure_user
  cases h : get_by_telegram_id st tid with
  | none =>
    simp only [h]
    exact ⟨⟨fun hf => absurd hf (by simp),
      fun ⟨u0, hu0, _⟩ => Option.noConfusion hu0⟩, fun hf => absurd hf (by simp)⟩
  | some u0 =>
    simp only [h]
    split
    · rename_i hupd
      refine ⟨⟨fun hf => absurd hf (by simp), ?_⟩, fun hf => absurd hf (by simp)⟩
      rintro ⟨u1, hu1, h1, h2, h3, h4, h5, h6⟩
      rw [Option.some.injEq] at hu1
      subst hu1
      simp [h1, h2, h3, h4, h5, h6] at hupd
    · rename_i hupd
      simp only [Bool.or_eq_true, Bool.not_eq_true', decide_eq_false_iff_not, not_or,
        not_not] at hupd
      obtain ⟨⟨⟨⟨⟨e1, e2⟩, e3⟩, e4⟩, e5⟩, e6⟩ := hupd
      exact ⟨⟨fun _ => ⟨u0, rfl, e1, e2, e3, e4, e5, e6⟩, fun _ => rfl⟩, fun _ => rfl⟩

theorem upsert_commit_iff_profile_changed_witness :
    ((ensure_user [] store100 5 (some (asciiBytes "u")) none none (asciiBytes "en")
        none).2.2 = false
      ↔ ∃ u0, get_by_telegram_id store100 5 = some u0
          ∧ u0.username = some (asciiBytes "u") ∧ u0.first_name = none
          ∧ u0.last_name = none ∧ u0.locale = asciiBytes "en"
          ∧ u0.avatar_url = none ∧ u0.is_admin = List.contains [] 5)
    ∧ (ensure_user [] store100 5 (some (asciiBytes "u")) none none (asciiBytes "en")
        none).2.2 = false
    ∧ (ensure_user [] store100 5 (some (asciiBytes "u")) none none (asciiBytes "en")
        none).2.1 = store100 :=
  have h := upsert_commit_iff_profile_changed [] store100 5 (some (asciiBytes "u"))
    none none (asciiBytes "en") none
  have hflag := h.1.mpr ⟨user100, rfl, rfl, rfl, rfl, rfl, rfl, rfl⟩
  ⟨h.1, hflag, h.2 hflag⟩

/-! ## C10 — `GET /users/me` mutates -/

lemma findByTelegramId_append_none (l : List User) (tid : Int) (u : User)
    (h : findByTelegramId l tid = none) :
    findByTelegramId (l ++ [u]) tid
      = if u.telegram_id = tid then some u else none := by
  induction l with
  | nil => rfl
  | cons e rest ih =>
    simp only [findByTelegramId] at h
    simp only [List.cons_append, findByTelegramId]
    by_cases hk : e.telegram_id = tid
    · rw [if_pos hk] at h
      exact Option.noConfusion h
    · rw [if_neg hk] at h ⊢
      exact ih h

/-- The stored user after `GET /users/me` re-verifies and upserts an
existing row: profile fields overwritten from the fresh init-data, admin
status recomputed, everything else untouched. -/
def merged_profile (adminIds : List Int) (tg : TelegramAuthData) (u0 : User) : User :=
  { u0 with
      username := tg.username
      first_name := tg.first_name
      last_name := tg.last_name
      locale := tg.locale.getD (asciiBytes "en")
      avatar_url := tg.photo_url
      is_admin := adminIds.contains tg.id }

/-- Claim C10: `GET /users/me` is not read-only — it performs exactly the
upsert the login route performs: a verified Telegram id with no user row
creates one (the store grows and the id resolves afterwards), and an
existing row is answered with its profile fields merged from the freshly
verified init-data. -/
theorem get_me_upserts_like_login (adminIds : List Int) (st : UserStore)
    (tg : TelegramAuthData) :
    get_me_route adminIds st tg = login_upsert adminIds st tg
    ∧ (get_by_telegram_id st tg.id = none
        → (get_me_route adminIds st tg).2.users.length = st.users.length + 1
          ∧ ∃ u, get_by_telegram_id (get_me_route adminIds st tg).2 tg.id = some u
              ∧ u.telegram_id = tg.id)
    ∧ (∀ u0, get_by_telegram_id st tg.id = some u0
        → (get_me_route adminIds st tg).1
            = user_to_public (merged_profile adminIds tg u0)) := by
  refine ⟨rfl, fun h => ?_, fun u0 h => ?_⟩
  · unfold get_me_route get_or_create ensure_user
    simp only [h]
    refine ⟨by simp, ?_⟩
    unfold get_by_telegram_id at h ⊢
    exact ⟨_, by rw [findByTelegramId_append_none _ _ _ h, if_pos rfl], rfl⟩
  · unfold get_me_route get_or_create ensure_user
    simp only [h]
    split
    · rfl
    · rename_i hupd
      simp only [Bool.or_eq_true, Bool.not_eq_true', decide_eq_false_iff_not, not_or,
        not_not] at hupd
      obtain ⟨⟨⟨⟨⟨e1, e2⟩, e3⟩, e4⟩, e5⟩, e6⟩ := hupd
      unfold merged_profile
      rw [← e1, ← e2, ← e3, ← e4, ← e5, ← e6]

theorem get_me_upserts_like_login_witness :
    get_by_telegram_id ⟨[], 1⟩ tgSample.id = none
    ∧ get_me_route [] ⟨[], 1⟩ tgSample = login_upsert [] ⟨[], 1⟩ tgSample
    ∧ (get_me_route [] ⟨[], 1⟩ tgSample).2.users.length = 1
    ∧ (∃ u, get_by_telegram_id (get_me_route [] ⟨[], 1⟩ tgSample).2 tgSample.id = some u
        ∧ u.telegram_id = tgSample.id)
    ∧ (∀ u0, get_by_telegram_id store100 tgSample.id = some u0
        → (get_me_route [] store100 tgSample).1
            = user_to_public (merged_profile [] tgSample u0)) :=
  have h := get_me_upserts_like_login [] ⟨[], 1⟩ tgSample
  ⟨rfl, h.1, (h.2.1 rfl).1, (h.2.1 rfl).2,
    (get_me_upserts_like_login [] store100 tgSample).2.2⟩

end QTG
